import Mathlib

/-!
# Verification of the github-event-router core pipeline

A shallow embedding, in Lean 4, of the parts of the `github-event-router`
TypeScript code base that the specification's claims are about:

* the retry policy and backoff computation (`server/retry.ts`, class
  `RetryHandler`);
* the ingest security validation (`server/webhook-security.ts`, class
  `WebhookSecurity`);
* the event processor: event storage, status updates and the retry loop
  (`server/event-processor.ts`, class `EventProcessor`);
* the webhook route handler (`server/webhooks.ts`, `setupWebhooks`);
* the in-process queue (`server/queue/memory.ts`, class `InMemoryQueue`);
* the header-encryption layer (`server/encryption.ts`).

Pure functions of the source become Lean functions; stateful code is
modelled by explicit state passing; introduction of randomness
(`Math.random()`, `crypto.randomBytes`) is modelled by passing the random
values as explicit arguments; JavaScript numbers are modelled by `Nat`/`Rat`;
code that throws is modelled with `Option`/`Except`.  External library
primitives (Node's `crypto` cipher functions, `JSON` on arbitrary maps) are
parameters of the relevant definitions; everything the repository itself
computes is defined concretely and executably.
-/

/-! ## Shared data model -/

/-- Event processing status, from `StoredEvent.status` in
`server/event-processor.ts` (also the CHECK constraint of the `events`
table in the migrations). -/
inductive Status where
  | pending
  | processing
  | completed
  | failed
  | dead_letter
deriving DecidableEq, Repr

/-- Result of one transport delivery, from `DeliveryResult` in
`server/transport.ts` (`durationMs` and `attempt` carried along but not
relevant to the retry decision). -/
structure DeliveryResult where
  success : Bool
  statusCode : Option Nat
  error : Option String
  durationMs : Nat
deriving DecidableEq, Repr

/-- Backoff strategy tag, from `RetryConfig.backoff_strategy` in
`server/config.ts`. -/
inductive BackoffStrategy where
  | linear
  | exponential
deriving DecidableEq, Repr

/-- Retry configuration, from `RetryConfig` in `server/config.ts`.
Delay fields are rationals, modelling exact JavaScript arithmetic on the
configured millisecond values. -/
structure RetryConfig where
  max_attempts : Nat
  backoff_strategy : BackoffStrategy
  initial_delay_ms : ℚ
  max_delay_ms : ℚ
  retryable_status_codes : List Nat
deriving DecidableEq, Repr

/-- Context of a retry decision, from `RetryContext` in `server/retry.ts`. -/
structure RetryContext where
  subscriberId : Nat
  eventId : String
  eventType : String
  attempt : Nat
deriving DecidableEq, Repr

/-- JavaScript truthiness of an optional number: `undefined` and `0` are
falsy, every other number is truthy.  Used where the source guards on
`result.statusCode`. -/
def numTruthy : Option Nat → Bool
  | none => false
  | some n => n != 0

namespace RetryHandler

/-- `RetryHandler.shouldRetry` from `server/retry.ts`:
returns `false` when the attempt count has reached `max_attempts`, when the
delivery succeeded, or when a truthy status code is not in the configured
retryable list; otherwise `true`.  The `result.statusCode &&` guard of the
source is JavaScript truthiness, so a status code of `0` skips the
retryable-list membership test. -/
def shouldRetry (cfg : RetryConfig) (result : DeliveryResult)
    (ctx : RetryContext) : Bool :=
  if cfg.max_attempts ≤ ctx.attempt then false
  else if result.success then false
  else if numTruthy result.statusCode &&
      !(match result.statusCode with
        | some c => cfg.retryable_status_codes.contains c
        | none => false) then false
  else true

/-- The delay before jitter: `initial_delay_ms * 2^(attempt-1)` for the
exponential strategy, `initial_delay_ms * attempt` for linear, as in
`RetryHandler.calculateDelay` in `server/retry.ts`. -/
def baseDelay (cfg : RetryConfig) (attempt : Nat) : ℚ :=
  match cfg.backoff_strategy with
  | .exponential => cfg.initial_delay_ms * 2 ^ (attempt - 1)
  | .linear => cfg.initial_delay_ms * attempt

/-- `RetryHandler.calculateDelay` from `server/retry.ts`.  The value of
`Math.random()` is the explicit argument `rand` (drawn from `[0, 1)`); the
source computes `jitter = delay * 0.1 * (rand * 2 - 1)`, adds it to the
strategy delay and clamps the sum to `max_delay_ms`. -/
def calculateDelay (cfg : RetryConfig) (attempt : Nat) (rand : ℚ) : ℚ :=
  let delay := baseDelay cfg attempt
  let jitter := delay * (1 / 10) * (rand * 2 - 1)
  min (delay + jitter) cfg.max_delay_ms

end RetryHandler

/-- The retry policy in the words of the specification (§4.6): retry iff
`attempt < maxAttempts` and the status code is absent or a member of the
configured retryable set.  Stated as a separate definition so it can be
compared with `RetryHandler.shouldRetry`, the policy the code implements. -/
def specPolicyRetries (cfg : RetryConfig) (result : DeliveryResult)
    (ctx : RetryContext) : Bool :=
  decide (ctx.attempt < cfg.max_attempts) &&
    (match result.statusCode with
     | none => true
     | some c => cfg.retryable_status_codes.contains c)

/-! ## Claim C6 — retry policy -/

/-- The base delay is nonnegative whenever the configured initial delay is. -/
theorem baseDelay_nonneg (cfg : RetryConfig) (attempt : Nat)
    (h : 0 ≤ cfg.initial_delay_ms) : 0 ≤ RetryHandler.baseDelay cfg attempt := by
  unfold RetryHandler.baseDelay
  cases cfg.backoff_strategy <;> positivity

/-- C6 counterexample: with the documented configuration whose retryable
set is `[500, 502, 503, 504, 408, 429]` (no `0`), a failed delivery whose
status code is `0` at attempt `1 < max_attempts = 3` IS retried by
`RetryHandler.shouldRetry` (the JavaScript guard `result.statusCode &&`
treats `0` as falsy and skips the membership test), although the policy as
the claim states it (`specPolicyRetries`) returns drop because `0` is not
a member of the configured set. -/
theorem c6_retry_policy_counterexample :
    RetryHandler.shouldRetry
        ⟨3, .exponential, 1000, 30000, [500, 502, 503, 504, 408, 429]⟩
        ⟨false, some 0, some "connection refused", 12⟩
        ⟨1, "D1", "push", 1⟩ = true ∧
      specPolicyRetries
        ⟨3, .exponential, 1000, 30000, [500, 502, 503, 504, 408, 429]⟩
        ⟨false, some 0, some "connection refused", 12⟩
        ⟨1, "D1", "push", 1⟩ = false := by
  constructor <;> rfl

/-- C6 amended: for every failed (non-successful) delivery result,
`RetryHandler.shouldRetry` returns retry if and only if the attempt number
is strictly less than `max_attempts` and the status code is absent, equal
to `0`, or a member of the configured retryable set.  (The amendment adds
the "equal to 0" case, forced by the counterexample: a status code of `0`
is falsy in JavaScript and bypasses the membership test.) -/
theorem c6_retry_policy_amended (cfg : RetryConfig) (result : DeliveryResult)
    (ctx : RetryContext) (hfail : result.success = false) :
    RetryHandler.shouldRetry cfg result ctx = true ↔
      ctx.attempt < cfg.max_attempts ∧
        (result.statusCode = none ∨ result.statusCode = some 0 ∨
          ∃ c, result.statusCode = some c ∧
            c ∈ cfg.retryable_status_codes) := by
  obtain ⟨succ, sc, err, dur⟩ := result
  simp only at hfail
  subst hfail
  unfold RetryHandler.shouldRetry
  cases sc with
  | none =>
    by_cases hle : cfg.max_attempts ≤ ctx.attempt <;>
      simp [hle, numTruthy] <;> try omega
  | some c =>
    by_cases hle : cfg.max_attempts ≤ ctx.attempt
    · simp [hle]
      try omega
    · by_cases hc : c = 0
      · subst hc
        simp [hle, numTruthy]
        try omega
      · by_cases hmem : c ∈ cfg.retryable_status_codes
        · simp [hle, numTruthy, hc, hmem]
          try omega
        · simp [hle, numTruthy, hc, hmem]
          try omega

/-- C6 witness: the amended characterization applied at a concrete failed
delivery (status 503, attempt 1 of 3, default retryable set). -/
theorem c6_retry_policy_amended_witness :
    (⟨false, some 503, none, 40⟩ : DeliveryResult).success = false ∧
      (RetryHandler.shouldRetry
          ⟨3, .exponential, 1000, 30000, [500, 502, 503, 504, 408, 429, 0]⟩
          ⟨false, some 503, none, 40⟩ ⟨1, "D1", "push", 1⟩ = true ↔
        (1 : Nat) < 3 ∧
          ((some 503 : Option Nat) = none ∨ (some 503 : Option Nat) = some 0 ∨
            ∃ c, (some 503 : Option Nat) = some c ∧
              c ∈ [500, 502, 503, 504, 408, 429, 0])) :=
  ⟨rfl, c6_retry_policy_amended
    ⟨3, .exponential, 1000, 30000, [500, 502, 503, 504, 408, 429, 0]⟩
    ⟨false, some 503, none, 40⟩ ⟨1, "D1", "push", 1⟩ rfl⟩

/-! ## Claim C7 — backoff formula and monotonicity -/

/-- The jitter-free strategy delay is monotone in the attempt number. -/
theorem baseDelay_mono (cfg : RetryConfig) (attempt : Nat)
    (hinit : 0 ≤ cfg.initial_delay_ms) :
    RetryHandler.baseDelay cfg attempt ≤ RetryHandler.baseDelay cfg (attempt + 1) := by
  unfold RetryHandler.baseDelay
  cases cfg.backoff_strategy with
  | exponential =>
    apply mul_le_mul_of_nonneg_left _ hinit
    apply pow_le_pow_right (by norm_num) (by omega)
  | linear =>
    apply mul_le_mul_of_nonneg_left _ hinit
    exact_mod_cast Nat.le_succ attempt

/-- C7: for every attempt `n ≥ 1`, `RetryHandler.calculateDelay` equals the
strategy delay (`initial_delay_ms * n` linear, `initial_delay_ms * 2^(n-1)`
exponential, which is `RetryHandler.baseDelay`) with uniform ±10 % jitter
applied and the result clamped to `max_delay_ms`; the jitter-free clamped
sequence is monotone non-decreasing, the realized delay never exceeds
`max_delay_ms`, and it stays within the ±10 % band around the jitter-free
clamped value. -/
theorem c7_backoff (cfg : RetryConfig) (attempt : Nat) (rand : ℚ)
    (hinit : 0 ≤ cfg.initial_delay_ms) (hmax : 0 ≤ cfg.max_delay_ms)
    (hatt : 1 ≤ attempt) (hr0 : 0 ≤ rand) (hr1 : rand ≤ 1) :
    RetryHandler.calculateDelay cfg attempt rand
        = min (RetryHandler.baseDelay cfg attempt * (1 + (rand * 2 - 1) / 10))
            cfg.max_delay_ms ∧
      min (RetryHandler.baseDelay cfg attempt) cfg.max_delay_ms
        ≤ min (RetryHandler.baseDelay cfg (attempt + 1)) cfg.max_delay_ms ∧
      RetryHandler.calculateDelay cfg attempt rand ≤ cfg.max_delay_ms ∧
      9 / 10 * min (RetryHandler.baseDelay cfg attempt) cfg.max_delay_ms
        ≤ RetryHandler.calculateDelay cfg attempt rand ∧
      RetryHandler.calculateDelay cfg attempt rand
        ≤ 11 / 10 * min (RetryHandler.baseDelay cfg attempt) cfg.max_delay_ms := by
  have hb := baseDelay_nonneg cfg attempt hinit
  refine ⟨?_, ?_, ?_, ?_, ?_⟩
  · unfold RetryHandler.calculateDelay
    congr 1
    ring
  · exact min_le_min (baseDelay_mono cfg attempt hinit) le_rfl
  · exact min_le_right _ _
  · unfold RetryHandler.calculateDelay
    apply le_min
    · nlinarith [min_le_left (RetryHandler.baseDelay cfg attempt) cfg.max_delay_ms,
        mul_le_mul_of_nonneg_left (show -(1/10 : ℚ) ≤ 1/10 * (rand * 2 - 1) by nlinarith) hb]
    · nlinarith [min_le_right (RetryHandler.baseDelay cfg attempt) cfg.max_delay_ms,
        le_min hb hmax]
  · unfold RetryHandler.calculateDelay
    rcases le_total (RetryHandler.baseDelay cfg attempt) cfg.max_delay_ms with h | h
    · rw [min_eq_left h]
      have := min_le_left
        (RetryHandler.baseDelay cfg attempt
          + RetryHandler.baseDelay cfg attempt * (1/10) * (rand * 2 - 1))
        cfg.max_delay_ms
      nlinarith [mul_le_mul_of_nonneg_left (show 1/10 * (rand * 2 - 1) ≤ (1/10 : ℚ) by nlinarith) hb]
    · rw [min_eq_right h]
      have := min_le_right
        (RetryHandler.baseDelay cfg attempt
          + RetryHandler.baseDelay cfg attempt * (1/10) * (rand * 2 - 1))
        cfg.max_delay_ms
      nlinarith

/-- Concrete retry configuration used to witness the C7 theorem
(exponential strategy, initial 100 ms, max 1000 ms, as in scenario S4). -/
def backoffDemoConfig : RetryConfig :=
  ⟨3, .exponential, 100, 1000, [500, 502, 503, 504, 408, 429, 0]⟩

/-- C7 witness: the backoff theorem applied at attempt 2 with
`Math.random() = 1/2`. -/
theorem c7_backoff_witness :
    ((0 : ℚ) ≤ backoffDemoConfig.initial_delay_ms ∧
      (0 : ℚ) ≤ backoffDemoConfig.max_delay_ms ∧
      (1 : Nat) ≤ 2 ∧ (0 : ℚ) ≤ 1 / 2 ∧ (1 / 2 : ℚ) ≤ 1) ∧
    (RetryHandler.calculateDelay backoffDemoConfig 2 (1 / 2)
        = min (RetryHandler.baseDelay backoffDemoConfig 2
            * (1 + ((1 / 2) * 2 - 1) / 10)) backoffDemoConfig.max_delay_ms ∧
      min (RetryHandler.baseDelay backoffDemoConfig 2)
          backoffDemoConfig.max_delay_ms
        ≤ min (RetryHandler.baseDelay backoffDemoConfig (2 + 1))
            backoffDemoConfig.max_delay_ms ∧
      RetryHandler.calculateDelay backoffDemoConfig 2 (1 / 2)
        ≤ backoffDemoConfig.max_delay_ms ∧
      9 / 10 * min (RetryHandler.baseDelay backoffDemoConfig 2)
          backoffDemoConfig.max_delay_ms
        ≤ RetryHandler.calculateDelay backoffDemoConfig 2 (1 / 2) ∧
      RetryHandler.calculateDelay backoffDemoConfig 2 (1 / 2)
        ≤ 11 / 10 * min (RetryHandler.baseDelay backoffDemoConfig 2)
            backoffDemoConfig.max_delay_ms) :=
  ⟨⟨by norm_num [backoffDemoConfig], by norm_num [backoffDemoConfig],
    by norm_num, by norm_num, by norm_num⟩,
   c7_backoff backoffDemoConfig 2 (1 / 2) (by norm_num [backoffDemoConfig])
     (by norm_num [backoffDemoConfig]) (by norm_num) (by norm_num) (by norm_num)⟩

/-! ## In-process queue (`server/queue/memory.ts`) — claim C9 -/

namespace InMemoryQueue

/-- A stored message, from `InMemoryMessage<T>` in `server/queue/memory.ts`.
Payload (`data`) is opaque to the queue; a `Nat` stands in for it.  Times
are milliseconds since an arbitrary origin. -/
structure QMsg where
  id : Nat
  data : Nat
  timestamp : Nat
  attempts : Nat
  visibleAt : Nat
  maxAttempts : Nat
deriving DecidableEq, Repr

/-- A message as returned by `receive`, from `QueueMessage<T>` in
`server/queue/interface.ts`. -/
structure Received where
  id : Nat
  data : Nat
  timestamp : Nat
  attempts : Nat
  maxAttempts : Nat
deriving DecidableEq, Repr

/-- The state of an `InMemoryQueue`: the keyed message table (`messages`,
a `Map` iterated in insertion order, modelled as a list), the `inFlight`
id set, and the constructor options that the methods read. -/
structure QState where
  messages : List QMsg
  inFlight : List Nat
  visibilityTimeout : Nat
  retentionPeriod : Nat
  maxRetries : Nat
deriving DecidableEq, Repr

/-- `cleanupExpiredMessages` from `server/queue/memory.ts`: drop messages
older than the retention period, also removing their in-flight marks. -/
def cleanupExpiredMessages (st : QState) (now : Nat) : QState :=
  let keep := st.messages.filter (fun m => now - m.timestamp ≤ st.retentionPeriod)
  { st with
    messages := keep,
    inFlight := st.inFlight.filter (fun i => keep.any (fun m => m.id == i)) }

/-- `InMemoryQueue.send` from `server/queue/memory.ts`.  The fresh
`randomUUID()` is the explicit `id` argument; a new message enters with
`attempts = 0` and `visibleAt = now + delayMs` (or `now`). -/
def send (st : QState) (id data now : Nat) (delayMs : Option Nat) : QState :=
  let visibleAt := match delayMs with
    | some d => now + d
    | none => now
  let st' := { st with
    messages := st.messages ++
      [⟨id, data, now, 0, visibleAt, st.maxRetries⟩] }
  cleanupExpiredMessages st' now

/-- The loop body of `InMemoryQueue.receive`: walk the table in order;
a message is returned when it is visible (`visibleAt ≤ now`) AND its id is
not in the `inFlight` set; a returned message is marked in-flight, its
`visibleAt` moved to `now + visibilityTimeout` and its `attempts`
incremented.  `budget` is the remaining `maxMessages` allowance (the
source breaks out of the loop once `result.length >= maxMessages`). -/
def receiveAux (vt now : Nat) :
    Nat → List QMsg → List Nat → List QMsg × List Nat × List Received
  | _, [], infl => ([], infl, [])
  | 0, msgs, infl => (msgs, infl, [])
  | budget + 1, m :: rest, infl =>
    if m.visibleAt ≤ now && !(infl.contains m.id) then
      let m' := { m with visibleAt := now + vt, attempts := m.attempts + 1 }
      let (ms, infl', rs) := receiveAux vt now budget rest (infl ++ [m.id])
      (m' :: ms, infl', ⟨m.id, m.data, m.timestamp, m'.attempts, m.maxAttempts⟩ :: rs)
    else
      let (ms, infl', rs) := receiveAux vt now (budget + 1) rest infl
      (m :: ms, infl', rs)

/-- `InMemoryQueue.receive` from `server/queue/memory.ts`. -/
def receive (st : QState) (now maxMessages : Nat) : QState × List Received :=
  let (ms, infl, rs) :=
    receiveAux st.visibilityTimeout now maxMessages st.messages st.inFlight
  ({ st with messages := ms, inFlight := infl }, rs)

/-- `InMemoryQueue.delete` from `server/queue/memory.ts`: remove the
message and its in-flight mark. -/
def delete (st : QState) (id : Nat) : QState :=
  { st with
    messages := st.messages.filter (fun m => m.id != id),
    inFlight := st.inFlight.filter (fun i => i != id) }

/-- `InMemoryQueue.changeVisibility` from `server/queue/memory.ts`: reset
`visibleAt` of the given message to `now + visibilityTimeoutMs`; the
in-flight mark is NOT removed. -/
def changeVisibility (st : QState) (id now ms : Nat) : QState :=
  { st with
    messages := st.messages.map
      (fun m => if m.id == id then { m with visibleAt := now + ms } else m) }

/-- An empty queue with the default options of the constructor
(`maxRetries 3`, `visibilityTimeout 30000 ms`, `retentionPeriod` 4 days). -/
def emptyDefault : QState := ⟨[], [], 30000, 345600000, 3⟩

end InMemoryQueue

/-- C9: the claim says a received-but-not-deleted message becomes visible
again after its lease expires.  The code violates this: `receive` marks a
returned message in the `inFlight` set, and lease expiry never removes
that mark (only `delete` does), so a second `receive` at a time strictly
after the message's `visibleAt` returns nothing.  Below, a message is
sent at t=0, received once (attempts becomes 1, `visibleAt` becomes
30000), and a `receive` at t=30001 — after lease expiry, with the message
still present and not deleted — returns the empty list. -/
theorem c9_lease_expiry_violated :
    (InMemoryQueue.receive (InMemoryQueue.send InMemoryQueue.emptyDefault 1 42 0 none) 0 1).2
        = [⟨1, 42, 0, 1, 3⟩] ∧
      ((InMemoryQueue.receive (InMemoryQueue.send InMemoryQueue.emptyDefault 1 42 0 none) 0 1).1).messages.map
          (fun m => (m.id, m.visibleAt)) = [(1, 30000)] ∧
      30000 < 30001 ∧
      (InMemoryQueue.receive
          (InMemoryQueue.receive (InMemoryQueue.send InMemoryQueue.emptyDefault 1 42 0 none) 0 1).1
          30001 1).2 = [] ∧
      ((InMemoryQueue.receive
          (InMemoryQueue.receive (InMemoryQueue.send InMemoryQueue.emptyDefault 1 42 0 none) 0 1).1
          30001 1).1).messages.map (fun m => m.id) = [1] := by
  refine ⟨rfl, rfl, by norm_num, rfl, rfl⟩

/-! ## Ingest security (`server/webhook-security.ts`) — claims C5, C10 -/

/-- Security configuration, from `SecurityConfig` in `server/config.ts`. -/
structure SecurityConfig where
  enable_rate_limiting : Bool
  requests_per_minute : Nat
  payload_size_limit_mb : Nat
deriving DecidableEq, Repr

/-- A rate-limiter window entry: the value type of the `rateLimiter` map
in `WebhookSecurity` (keyed by client IP). -/
structure RateEntry where
  ip : String
  count : Nat
  resetTime : Nat
deriving DecidableEq, Repr

/-- Mutable state of a `WebhookSecurity` instance: the per-IP rate
limiter map and the IP whitelist set. -/
structure SecurityState where
  rateLimiter : List RateEntry
  ipWhitelist : List String
deriving DecidableEq, Repr

/-- `WebhookSecurity.checkRateLimit`: if the client IP has no current
window (no entry, or the entry's reset time has passed) a fresh window
with count 1 starts and the request is not blocked; otherwise the count
is incremented and the request is blocked when the count exceeds
`requests_per_minute`. -/
def checkRateLimit (cfg : SecurityConfig) (rl : List RateEntry)
    (ip : String) (now : Nat) : Bool × List RateEntry :=
  match rl.find? (fun e => e.ip == ip) with
  | none =>
    (false, rl ++ [⟨ip, 1, now + 60000⟩])
  | some e =>
    if e.resetTime ≤ now then
      (false, rl.map (fun x => if x.ip == ip then ⟨ip, 1, now + 60000⟩ else x))
    else
      let newCount := e.count + 1
      (decide (cfg.requests_per_minute < newCount),
        rl.map (fun x => if x.ip == ip then ⟨ip, newCount, e.resetTime⟩ else x))

/-- UTF-8 encoded length of one character, as `Buffer.from(s, "utf8")`
counts it. -/
def utf8Len (c : Char) : Nat :=
  if c.toNat < 0x80 then 1
  else if c.toNat < 0x800 then 2
  else if c.toNat < 0x10000 then 3
  else 4

/-- Byte length of the UTF-8 encoding of a string (the `length` of
`Buffer.from(s, "utf8")` in Node). -/
def byteSize (s : String) : Nat := (s.data.map utf8Len).sum

/-- Node's `crypto.timingSafeEqual` on the UTF-8 buffers of two strings:
throws (here: `Except.error`) when the byte lengths differ, otherwise
compares the buffers byte for byte — which, UTF-8 being an injective
encoding, holds exactly when the strings are equal. -/
def timingSafeEqual (a b : String) : Except Unit Bool :=
  if byteSize a = byteSize b then .ok (a == b) else .error ()

namespace WebhookSecurity

/-- `WebhookSecurity.verifySignature` from `server/webhook-security.ts`:
computes `"sha256=" + HMAC-SHA-256-hex(secret, payload)` and compares it
to the provided signature with `crypto.timingSafeEqual`, returning
`false` from the surrounding `catch` when the primitive throws on a
length mismatch.  The HMAC-SHA-256 hex digest primitive (an external
library function) is the explicit `hmacHex` argument. -/
def verifySignature (hmacHex : String → String → String)
    (payload signature secret : String) : Bool :=
  let digest := "sha256=" ++ hmacHex secret payload
  match timingSafeEqual digest signature with
  | .ok b => b
  | .error _ => false

end WebhookSecurity

/-- The checks of the ingest path, in the order the claims discuss them;
used to record which checks a given request actually went through. -/
inductive Check where
  | ipAllow
  | rateLimit
  | sizeLimit
  | sigPresent
  | hmacCompare
  | requiredHeaders
  | jsonValid
  | processEvent
deriving DecidableEq, Repr

/-- Position of each check in the canonical order of the ingest path. -/
def checkIdx : Check → Nat
  | .ipAllow => 0
  | .rateLimit => 1
  | .sizeLimit => 2
  | .sigPresent => 3
  | .hmacCompare => 4
  | .requiredHeaders => 5
  | .jsonValid => 6
  | .processEvent => 7

/-- An incoming webhook request as the security layer and the route
handler read it: the resolved client IP (the result of `getClientIP`),
the parsed `content-length` header (`parseInt(h || "0")`), the three
optional GitHub headers, and the raw body. -/
structure Request where
  clientIP : String
  contentLength : Nat
  signature : Option String
  eventType : Option String
  deliveryId : Option String
  rawBody : String
deriving DecidableEq, Repr

/-- `ValidationResult` from `server/webhook-security.ts`. -/
structure ValidationResult where
  valid : Bool
  error : Option String
  statusCode : Option Nat
deriving DecidableEq, Repr

namespace WebhookSecurity

/-- `WebhookSecurity.validateRequest` from `server/webhook-security.ts`,
instrumented with the list of checks performed (in order).  The checks
run in source order: IP whitelist (only when a whitelist is configured),
rate limiting (only when enabled), payload size, signature presence,
then the HMAC comparison; each failing check short-circuits. -/
def validateRequest (hmacHex : String → String → String)
    (cfg : SecurityConfig) (st : SecurityState) (req : Request)
    (secret : String) (now : Nat) :
    ValidationResult × SecurityState × List Check :=
  -- IP whitelist check (if configured)
  if 0 < st.ipWhitelist.length && !(st.ipWhitelist.contains req.clientIP) then
    (⟨false, some "IP not whitelisted", some 403⟩, st, [.ipAllow])
  else
    let t1 : List Check := if 0 < st.ipWhitelist.length then [.ipAllow] else []
    -- rate limiting
    let (blocked, rl') :=
      if cfg.enable_rate_limiting then
        checkRateLimit cfg st.rateLimiter req.clientIP now
      else (false, st.rateLimiter)
    let st1 : SecurityState := { st with rateLimiter := rl' }
    let t2 := if cfg.enable_rate_limiting then t1 ++ [Check.rateLimit] else t1
    if blocked then
      (⟨false, some "Rate limit exceeded", some 429⟩, st1, t2)
    else
      -- payload size check
      let t3 := t2 ++ [Check.sizeLimit]
      if cfg.payload_size_limit_mb * 1024 * 1024 < req.contentLength then
        (⟨false, some "Payload too large", some 413⟩, st1, t3)
      else
        -- signature validation
        match req.signature with
        | none =>
          (⟨false, some "Missing signature", some 401⟩, st1,
            t3 ++ [Check.sigPresent])
        | some sig =>
          let t4 := t3 ++ [Check.sigPresent, Check.hmacCompare]
          if verifySignature hmacHex req.rawBody sig secret then
            (⟨true, none, none⟩, st1, t4)
          else
            (⟨false, some "Invalid signature", some 401⟩, st1, t4)

end WebhookSecurity

/-! ## Event processor (`server/event-processor.ts`) — claims C1, C2, C3 -/

/-- A row of the `events` table, restricted to the columns the claims are
about (`github_delivery_id` carries the SQL UNIQUE constraint). -/
structure EventRow where
  id : Nat
  github_delivery_id : String
  event_type : String
  status : Status
deriving DecidableEq, Repr

/-- An incoming GitHub event as `processEvent` receives it, from
`GitHubEvent` in `server/transport.ts` (payload and headers are opaque
here). -/
structure GHEvent where
  deliveryId : String
  eventType : String
deriving DecidableEq, Repr

/-- A subscriber as the processor reads it, from `Subscriber` in
`server/subscriber.ts`: id, subscribed event types, and whether a
transport configuration is attached. -/
structure SubscriberRec where
  id : Nat
  events : List String
  hasTransport : Bool
deriving DecidableEq, Repr

/-- The two fields of `EventProcessingResult` that the status
aggregation and the HTTP route read: `success`, and whether a
`nextRetryAt` was set. -/
structure EPResult where
  success : Bool
  nextRetry : Bool
deriving DecidableEq, Repr

namespace EventProcessor

/-- `EventProcessor.storeEvent` from `server/event-processor.ts`: a plain
`INSERT` into `events` with `status = "pending"`.  The `github_delivery_id`
column is UNIQUE (migrations), so better-sqlite3 throws on a duplicate
delivery id; this is modelled by `Except.error` with the SQLite message.
There is no duplicate-handling in the source: the error propagates. -/
def storeEvent (table : List EventRow) (ev : GHEvent) :
    Except String (List EventRow × Nat) :=
  if table.any (fun r => r.github_delivery_id == ev.deliveryId) then
    .error "UNIQUE constraint failed: events.github_delivery_id"
  else
    let newId := table.length + 1
    .ok (table ++ [⟨newId, ev.deliveryId, ev.eventType, .pending⟩], newId)

/-- `EventProcessor.updateEventStatus` from `server/event-processor.ts`:
an unconditional `UPDATE events SET status = ? WHERE id = ?` — no guard
against leaving a terminal state or moving backwards. -/
def updateEventStatus (table : List EventRow) (eventId : Nat)
    (status : Status) : List EventRow :=
  table.map (fun r => if r.id == eventId then { r with status := status } else r)

/-- `EventProcessor.deliverToSubscriber` from `server/event-processor.ts`,
reduced to the fields the aggregation reads.  The transport call is the
explicit `deliver` argument (`Except.error` models a thrown exception,
whose catch branch records the attempt and returns failure WITHOUT a
retry check).  On an unsuccessful result a retry for attempt 2 is
scheduled exactly when `RetryHandler.shouldRetry` admits it. -/
def deliverToSubscriber (cfg : RetryConfig)
    (deliver : Nat → Except String DeliveryResult) (ev : GHEvent)
    (s : SubscriberRec) : EPResult :=
  if !s.hasTransport then ⟨false, false⟩
  else match deliver s.id with
    | .error _ => ⟨false, false⟩
    | .ok result =>
      if result.success then ⟨true, false⟩
      else if RetryHandler.shouldRetry cfg result ⟨s.id, ev.deliveryId, ev.eventType, 1⟩ then
        ⟨false, true⟩
      else ⟨false, false⟩

/-- `EventProcessor.processEvent` from `server/event-processor.ts`: store
the event (duplicate delivery ids make this throw), filter subscribers on
the event type, mark `completed` when none match, otherwise mark
`processing`, deliver to each matching subscriber, and set the final
status: `completed` if all succeeded, `pending` if any retry was
scheduled, `failed` otherwise. -/
def processEvent (cfg : RetryConfig)
    (deliver : Nat → Except String DeliveryResult)
    (subs : List SubscriberRec) (table : List EventRow) (ev : GHEvent) :
    Except String (List EventRow × List EPResult) :=
  match storeEvent table ev with
  | .error e => .error e
  | .ok (t1, eid) =>
    let matching := subs.filter (fun s => s.events.contains ev.eventType)
    if matching.isEmpty then
      .ok (updateEventStatus t1 eid .completed, [])
    else
      let t2 := updateEventStatus t1 eid .processing
      let results := matching.map (deliverToSubscriber cfg deliver ev)
      let final :=
        if results.all (fun r => r.success) then Status.completed
        else if results.any (fun r => r.nextRetry) then Status.pending
        else Status.failed
      .ok (updateEventStatus t2 eid final, results)

/-- The sequence of `status` values `processEvent` writes for one event,
in order: the insert with `pending`, then either `completed` (no matching
subscriber) or `processing` followed by the aggregated final status
(`completed` / `pending`-for-retry / `failed`), mirroring the
`updateEventStatus` calls of `processEvent`. -/
def processEventStatusWrites (results : List EPResult) : List Status :=
  if results.isEmpty then [.pending, .completed]
  else
    [.pending, .processing,
      if results.all (fun r => r.success) then Status.completed
      else if results.any (fun r => r.nextRetry) then Status.pending
      else Status.failed]

/-- Outcome of one `processRetry` run, from `server/event-processor.ts`:
the subscriber-missing and parse/decrypt-failure branches return without
touching the event; transport success marks the event `completed`;
an admissible retry schedules the next attempt (no status write); an
inadmissible one marks the event `failed`; a thrown transport error only
records the attempt.  No branch writes `dead_letter`. -/
inductive RetryOutcome where
  | abortedNoSubscriber
  | abortedParse
  | completed
  | scheduledNext (attempt : Nat)
  | markedFailed
  | attemptErrored
deriving DecidableEq, Repr

/-- `EventProcessor.processRetry` from `server/event-processor.ts`,
reduced to its control flow.  `subscriberOk` is "subscriber found and has
a transport"; `parseOk` is "payload parsed and headers decrypted";
`deliver` is the transport call; `next_attempt` is the attempt being
made (the stored attempt number + 1). -/
def processRetry (cfg : RetryConfig) (subscriberOk parseOk : Bool)
    (deliver : Except String DeliveryResult) (subscriberId : Nat)
    (deliveryId eventType : String) (next_attempt : Nat) : RetryOutcome :=
  if !subscriberOk then .abortedNoSubscriber
  else if !parseOk then .abortedParse
  else match deliver with
    | .error _ => .attemptErrored
    | .ok result =>
      if result.success then .completed
      else if RetryHandler.shouldRetry cfg result
          ⟨subscriberId, deliveryId, eventType, next_attempt⟩ then
        .scheduledNext (next_attempt + 1)
      else .markedFailed

/-- The event-status write a `RetryOutcome` performs, if any. -/
def retryStatusWrite : RetryOutcome → Option Status
  | .completed => some .completed
  | .markedFailed => some .failed
  | _ => none

end EventProcessor

/-- Rank of a status in the order of the claimed state machine
`pending → processing → {completed, failed, dead_letter}`. -/
def statusRank : Status → Nat
  | .pending => 0
  | .processing => 1
  | _ => 2

/-- The status edges `processEvent` can actually produce, read off the
source: insert `pending`; `pending → completed` (no matching subscriber),
`pending → processing`, and from `processing` the aggregate `completed`,
`pending` (retries scheduled) or `failed`. -/
def processEventEdges : List (Status × Status) :=
  [(.pending, .processing), (.pending, .completed),
   (.processing, .completed), (.processing, .pending), (.processing, .failed)]

/-! ## Webhook route handler (`server/webhooks.ts`) — claims C1, C5, C8 -/

/-- The JSON body of the route's final response: either an error object
or the result object `{message, subscribers, successful, failed,
retries}`. -/
inductive ResponseBody where
  | errorBody (error : String)
  | resultBody (message : String)
      (subscribers successful failed retries : Nat)
deriving DecidableEq, Repr

/-- An HTTP response of the webhook route. -/
structure HandlerResponse where
  status : Nat
  body : ResponseBody
deriving DecidableEq, Repr

/-- The response status mapping of `setupWebhooks` in
`server/webhooks.ts`: `500` when there are failures and no retries
("complete failure" in the source's words), `202` when there are failures
with retries, `200` otherwise. -/
def responseStatus (results : List EPResult) : Nat :=
  let hasFailures := results.any (fun r => !r.success)
  let hasRetries := results.any (fun r => r.nextRetry)
  if hasFailures && !hasRetries then 500
  else if hasFailures && hasRetries then 202
  else 200

/-- The result body of `setupWebhooks`: the message and the four counts
computed from the `processEvent` results. -/
def responseCounts (results : List EPResult) : ResponseBody :=
  .resultBody
    (if results.length == 0 then "No subscribers for this event"
     else "Event processed")
    results.length
    (results.filter (fun r => r.success)).length
    (results.filter (fun r => !r.success)).length
    (results.filter (fun r => r.nextRetry)).length

/-- The webhook route handler of `setupWebhooks` in `server/webhooks.ts`,
instrumented with the ordered list of checks performed.  Control flow of
the source: run `validateRequest` (rejecting with its status code on
failure), then check presence of the event-type and delivery-id headers
(400), then parse the JSON body (400) — `parseOk` stands for the success
of `JSON.parse` on the raw body — then run `processEvent`; a thrown error
(in particular the duplicate-delivery-id UNIQUE violation from
`storeEvent`) reaches the surrounding catch and maps to 500, otherwise
the response is built from the results. -/
def webhookHandler (hmacHex : String → String → String)
    (cfg : SecurityConfig) (st : SecurityState) (req : Request)
    (secret : String) (now : Nat) (parseOk : Bool)
    (process : Except String (List EPResult)) :
    HandlerResponse × List Check :=
  let (vres, _, t) := WebhookSecurity.validateRequest hmacHex cfg st req secret now
  if !vres.valid then
    (⟨vres.statusCode.getD 400, .errorBody (vres.error.getD "")⟩, t)
  else
    match req.eventType, req.deliveryId with
    | some _, some _ =>
      let t2 := t ++ [Check.requiredHeaders]
      if !parseOk then
        (⟨400, .errorBody "Invalid JSON payload"⟩, t2 ++ [Check.jsonValid])
      else
        let t3 := t2 ++ [Check.jsonValid, Check.processEvent]
        match process with
        | .error _ => (⟨500, .errorBody "Internal server error"⟩, t3)
        | .ok results => (⟨responseStatus results, responseCounts results⟩, t3)
    | _, _ =>
      (⟨400, .errorBody "Missing required headers"⟩, t ++ [Check.requiredHeaders])

/-! ## Claim C2 — status state machine -/

/-- Whether every consecutive pair of a sequence satisfies the boolean
relation `R` (executable form of a chain condition). -/
def chainOk {α : Type} (R : α → α → Bool) : List α → Bool
  | [] => true
  | [_] => true
  | a :: b :: rest => R a b && chainOk R (b :: rest)

/-- C2 counterexample: when a matching subscriber fails with a retry
scheduled, `processEvent` writes the status sequence
`pending, processing, pending` — the final aggregation
(`server/event-processor.ts`, "Will be retried") moves the event from
`processing` BACK to `pending`, so the write sequence is not monotone
along the claimed order (`statusRank` decreases on the last step). -/
theorem c2_monotone_status_counterexample :
    EventProcessor.processEventStatusWrites [⟨false, true⟩]
        = [.pending, .processing, .pending] ∧
      chainOk (fun a b => decide (statusRank a ≤ statusRank b))
          [Status.pending, .processing, .pending] = false :=
  ⟨rfl, rfl⟩

/-- C2 amended: every status write sequence of `processEvent` moves along
the edges `pending → processing`, `pending → completed`,
`processing → completed`, `processing → pending` (retries scheduled) and
`processing → failed`; and the only statuses `processRetry` ever writes
are `completed` and `failed` (written unconditionally by
`updateEventStatus`, with no guard protecting records already in
`completed` or `dead_letter`, and `dead_letter` itself is never
written). -/
theorem c2_status_transitions_amended :
    (∀ results : List EPResult,
        chainOk (fun a b => processEventEdges.contains (a, b))
          (EventProcessor.processEventStatusWrites results) = true) ∧
      (∀ (cfg : RetryConfig) (subOk parseOk : Bool)
          (dlv : Except String DeliveryResult) (sid : Nat)
          (did ety : String) (att : Nat),
        EventProcessor.retryStatusWrite
            (EventProcessor.processRetry cfg subOk parseOk dlv sid did ety att)
              ≠ some .dead_letter ∧
          (EventProcessor.retryStatusWrite
              (EventProcessor.processRetry cfg subOk parseOk dlv sid did ety att)
                = none ∨
            EventProcessor.retryStatusWrite
                (EventProcessor.processRetry cfg subOk parseOk dlv sid did ety att)
                  = some .completed ∨
            EventProcessor.retryStatusWrite
                (EventProcessor.processRetry cfg subOk parseOk dlv sid did ety att)
                  = some .failed)) := by
  constructor
  · intro results
    unfold EventProcessor.processEventStatusWrites
    split
    · decide
    · split
      · decide
      · split <;> decide
  · intro cfg subOk parseOk dlv sid did ety att
    unfold EventProcessor.processRetry EventProcessor.retryStatusWrite
    rcases subOk with _ | _ <;> rcases parseOk with _ | _ <;>
      rcases dlv with e | r <;> simp <;> split <;> simp <;> split <;> simp

/-! ## Claim C3 — dead-letter threshold -/

/-- C3: the claim (and §4.6 of the specification, the repository's README
"Dead letter queue for failed deliveries", the `dead_letter` value of the
events-table CHECK constraint and the `dead_letter_threshold`
configuration option) says an event whose final retry fails at or beyond
the dead-letter threshold is transitioned to `dead_letter`.  The code
only ever marks the event `failed`: at the failing input (attempt 3 of
`max_attempts = 3`, dead-letter threshold 3, delivery failed with 500)
`processRetry` yields `markedFailed`, and no input at all makes it write
`dead_letter` — the `dead_letter_threshold` option is read by no code. -/
theorem c3_dead_letter_never_written :
    EventProcessor.processRetry
          ⟨3, .exponential, 1000, 30000, [500, 502, 503, 504, 408, 429, 0]⟩
          true true (.ok ⟨false, some 500, none, 10⟩) 1 "D1" "push" 3
        = .markedFailed ∧
      EventProcessor.retryStatusWrite .markedFailed = some .failed ∧
      (∀ (cfg : RetryConfig) (subOk parseOk : Bool)
          (dlv : Except String DeliveryResult) (sid : Nat)
          (did ety : String) (att : Nat),
        EventProcessor.retryStatusWrite
          (EventProcessor.processRetry cfg subOk parseOk dlv sid did ety att)
            ≠ some .dead_letter) := by
  refine ⟨rfl, rfl, ?_⟩
  intro cfg subOk parseOk dlv sid did ety att
  rcases hpr : EventProcessor.processRetry cfg subOk parseOk dlv sid did ety att with
    _ | _ | _ | a | _ | _ <;> simp [EventProcessor.retryStatusWrite]

/-! ## Claim C8 — HTTP response mapping -/

/-- C8 counterexample: with one successful subscriber and one permanently
failed one (no retry scheduled), the route returns 500 although NOT all
subscribers permanently failed — the source computes 500 from
`hasFailures && !hasRetries`, i.e. from "at least one failure and no
retries", not from "all failed". -/
theorem c8_response_status_counterexample :
    responseStatus [⟨true, false⟩, ⟨false, false⟩] = 500 ∧
      ([⟨true, false⟩, ⟨false, false⟩] : List EPResult).any
          (fun r => r.success) = true :=
  ⟨rfl, rfl⟩

/-- C8 amended: the response status is 500 exactly when at least one
subscriber failed and no retry was scheduled, 202 exactly when at least
one subscriber failed and at least one retry was scheduled, and 200
exactly when no subscriber failed (in particular when no subscriber
matched); the body carries the message and the counts
`{subscribers, successful, failed, retries}` computed from the results,
and successful and failed counts partition the subscriber count. -/
theorem c8_response_mapping_amended (results : List EPResult) :
    (responseStatus results = 500 ↔
        results.any (fun r => !r.success) = true ∧
          results.any (fun r => r.nextRetry) = false) ∧
      (responseStatus results = 202 ↔
        results.any (fun r => !r.success) = true ∧
          results.any (fun r => r.nextRetry) = true) ∧
      (responseStatus results = 200 ↔
        results.any (fun r => !r.success) = false) ∧
      responseCounts results = ResponseBody.resultBody
        (if results.length == 0 then "No subscribers for this event"
         else "Event processed")
        results.length
        (results.filter (fun r => r.success)).length
        (results.filter (fun r => !r.success)).length
        (results.filter (fun r => r.nextRetry)).length ∧
      (results.filter (fun r => r.success)).length
          + (results.filter (fun r => !r.success)).length
        = results.length := by
  refine ⟨?_, ?_, ?_, rfl, ?_⟩
  · unfold responseStatus
    by_cases hf : results.any (fun r => !r.success) <;>
      by_cases hr : results.any (fun r => r.nextRetry) <;>
        simp [hf, hr]
  · unfold responseStatus
    by_cases hf : results.any (fun r => !r.success) <;>
      by_cases hr : results.any (fun r => r.nextRetry) <;>
        simp [hf, hr]
  · unfold responseStatus
    by_cases hf : results.any (fun r => !r.success) <;>
      by_cases hr : results.any (fun r => r.nextRetry) <;>
        simp [hf, hr]
  · induction results with
    | nil => rfl
    | cons r rest ih =>
      by_cases hs : r.success <;> simp [hs, List.filter] <;> omega

/-! ## Claim C10 — signature verification is total on malformed input -/

/-- UTF-8 byte length is additive over string concatenation. -/
theorem byteSize_append (a b : String) :
    byteSize (a ++ b) = byteSize a + byteSize b := by
  unfold byteSize
  rw [String.data_append, List.map_append, List.sum_append]

/-- C10: for every signature string whose UTF-8 byte length differs from
71 — the length of `"sha256="` (7 bytes) plus a 64-hex-digit digest —
`verifySignature` returns `false` instead of propagating the length
mismatch that `crypto.timingSafeEqual` raises (the `try/catch` in
`server/webhook-security.ts` swallows it), and `validateRequest` rejects
the request with 401 "Invalid signature".  `hmacHex` is the HMAC-SHA-256
hex digest primitive; its output is always 64 hex characters, which the
hypothesis `hlen` records. -/
theorem c10_sig_length_mismatch (hmacHex : String → String → String)
    (cfg : SecurityConfig) (st : SecurityState) (req : Request)
    (secret : String) (now : Nat) (sig : String)
    (hsig : req.signature = some sig)
    (hwl : st.ipWhitelist = [])
    (hrate : cfg.enable_rate_limiting = false)
    (hsize : req.contentLength ≤ cfg.payload_size_limit_mb * 1024 * 1024)
    (hlen : byteSize (hmacHex secret req.rawBody) = 64)
    (hne : byteSize sig ≠ 71) :
    WebhookSecurity.verifySignature hmacHex req.rawBody sig secret = false ∧
      (WebhookSecurity.validateRequest hmacHex cfg st req secret now).1
        = ⟨false, some "Invalid signature", some 401⟩ := by
  have hdigest : byteSize ("sha256=" ++ hmacHex secret req.rawBody) = 71 := by
    rw [byteSize_append, hlen]
    rfl
  have hne2 : ¬ byteSize ("sha256=" ++ hmacHex secret req.rawBody)
      = byteSize sig := by
    rw [hdigest]
    omega
  have hv : WebhookSecurity.verifySignature hmacHex req.rawBody sig secret
      = false := by
    simp [WebhookSecurity.verifySignature, timingSafeEqual, hne2]
  refine ⟨hv, ?_⟩
  unfold WebhookSecurity.validateRequest
  rw [hwl, hrate, hsig]
  simp [Nat.not_lt.mpr hsize, hv]

/-- C10 witness: a 12-byte signature `"sha256=oops"` against a 64-hex
HMAC primitive output: verification returns `false` and the request is
rejected 401. -/
theorem c10_sig_length_mismatch_witness :
    ((⟨"9.9.9.9", 2, some "sha256=oops", some "push", some "D1", "\x7b\x7d"⟩ : Request).signature
        = some "sha256=oops" ∧
      (⟨[], []⟩ : SecurityState).ipWhitelist = [] ∧
      (⟨false, 60, 10⟩ : SecurityConfig).enable_rate_limiting = false ∧
      (2 : Nat) ≤ 10 * 1024 * 1024 ∧
      byteSize ((fun (_ _ : String) =>
        "0123456789abcdef0123456789abcdef0123456789abcdef0123456789abcdef")
          "core-secret" "\x7b\x7d") = 64 ∧
      byteSize "sha256=oops" ≠ 71) ∧
    (WebhookSecurity.verifySignature
        (fun _ _ =>
          "0123456789abcdef0123456789abcdef0123456789abcdef0123456789abcdef")
        "\x7b\x7d" "sha256=oops" "core-secret" = false ∧
      (WebhookSecurity.validateRequest
          (fun _ _ =>
            "0123456789abcdef0123456789abcdef0123456789abcdef0123456789abcdef")
          ⟨false, 60, 10⟩ ⟨[], []⟩
          ⟨"9.9.9.9", 2, some "sha256=oops", some "push", some "D1", "\x7b\x7d"⟩
          "core-secret" 0).1
        = ⟨false, some "Invalid signature", some 401⟩) :=
  ⟨⟨rfl, rfl, rfl, by norm_num, by decide, by decide⟩,
    c10_sig_length_mismatch
      (fun _ _ =>
        "0123456789abcdef0123456789abcdef0123456789abcdef0123456789abcdef")
      ⟨false, 60, 10⟩ ⟨[], []⟩
      ⟨"9.9.9.9", 2, some "sha256=oops", some "push", some "D1", "\x7b\x7d"⟩
      "core-secret" 0 "sha256=oops" rfl rfl rfl (by norm_num) (by decide)
      (by decide)⟩

/-! ## Claim C5 — order of ingest checks -/

/-- Case analysis of `validateRequest`: on success the performed checks
are the configured prefix (IP allowlist if a whitelist is set, rate limit
if enabled) followed by size limit, signature presence and the HMAC
comparison; on failure the trace is cut short at the failing check. -/
theorem validateRequest_trace_cases (hmacHex : String → String → String)
    (cfg : SecurityConfig) (st : SecurityState) (req : Request)
    (secret : String) (now : Nat) :
    ((WebhookSecurity.validateRequest hmacHex cfg st req secret now).1.valid = true ∧
      (WebhookSecurity.validateRequest hmacHex cfg st req secret now).2.2
        = (if 0 < st.ipWhitelist.length then [Check.ipAllow] else [])
          ++ (if cfg.enable_rate_limiting then [Check.rateLimit] else [])
          ++ [Check.sizeLimit, Check.sigPresent, Check.hmacCompare]) ∨
    ((WebhookSecurity.validateRequest hmacHex cfg st req secret now).1.valid = false ∧
      ((WebhookSecurity.validateRequest hmacHex cfg st req secret now).2.2
          = [Check.ipAllow] ∨
        (WebhookSecurity.validateRequest hmacHex cfg st req secret now).2.2
          = (if 0 < st.ipWhitelist.length then [Check.ipAllow] else [])
            ++ (if cfg.enable_rate_limiting then [Check.rateLimit] else []) ∨
        (WebhookSecurity.validateRequest hmacHex cfg st req secret now).2.2
          = (if 0 < st.ipWhitelist.length then [Check.ipAllow] else [])
            ++ (if cfg.enable_rate_limiting then [Check.rateLimit] else [])
            ++ [Check.sizeLimit] ∨
        (WebhookSecurity.validateRequest hmacHex cfg st req secret now).2.2
          = (if 0 < st.ipWhitelist.length then [Check.ipAllow] else [])
            ++ (if cfg.enable_rate_limiting then [Check.rateLimit] else [])
            ++ [Check.sizeLimit, Check.sigPresent] ∨
        (WebhookSecurity.validateRequest hmacHex cfg st req secret now).2.2
          = (if 0 < st.ipWhitelist.length then [Check.ipAllow] else [])
            ++ (if cfg.enable_rate_limiting then [Check.rateLimit] else [])
            ++ [Check.sizeLimit, Check.sigPresent, Check.hmacCompare])) := by
  obtain ⟨ip, cl, sg, et, di, rb⟩ := req
  unfold WebhookSecurity.validateRequest
  rcases hcr : checkRateLimit cfg st.rateLimiter ip now with ⟨blocked, rl2⟩
  cases sg with
  | none =>
    by_cases hwl : 0 < st.ipWhitelist.length <;>
      by_cases hip : ip ∈ st.ipWhitelist <;>
        by_cases hre : cfg.enable_rate_limiting <;>
          cases blocked <;>
            by_cases hsz : cfg.payload_size_limit_mb * 1024 * 1024 < cl <;>
              simp [hwl, hip, hre, hcr, hsz]
  | some sig =>
    by_cases hv : WebhookSecurity.verifySignature hmacHex rb sig secret <;>
      by_cases hwl : 0 < st.ipWhitelist.length <;>
        by_cases hip : ip ∈ st.ipWhitelist <;>
          by_cases hre : cfg.enable_rate_limiting <;>
            cases blocked <;>
              by_cases hsz : cfg.payload_size_limit_mb * 1024 * 1024 < cl <;>
                simp [hwl, hip, hre, hcr, hsz, hv]

/-- C5 counterexample: a request that is missing the event-type header
but carries a valid signature.  The claim says such a request is rejected
400 BEFORE any HMAC comparison; in the source the event-type/delivery-id
presence check lives in the route handler AFTER `validateRequest` has
already run the HMAC comparison, so the performed checks are size limit,
signature presence, HMAC comparison, and only then the required-headers
check that produces the 400. -/
theorem c5_check_order_counterexample :
    (webhookHandler (fun _ _ => "ab") ⟨false, 1000, 10⟩ ⟨[], []⟩
        ⟨"1.2.3.4", 10, some "sha256=ab", none, some "D1", "\x7b\x7d"⟩
        "core-secret" 0 true (.ok [])).1.status = 400 ∧
      (webhookHandler (fun _ _ => "ab") ⟨false, 1000, 10⟩ ⟨[], []⟩
          ⟨"1.2.3.4", 10, some "sha256=ab", none, some "D1", "\x7b\x7d"⟩
          "core-secret" 0 true (.ok [])).2
        = [.sizeLimit, .sigPresent, .hmacCompare, .requiredHeaders] ∧
      Check.hmacCompare ∈ (webhookHandler (fun _ _ => "ab") ⟨false, 1000, 10⟩
          ⟨[], []⟩ ⟨"1.2.3.4", 10, some "sha256=ab", none, some "D1", "\x7b\x7d"⟩
          "core-secret" 0 true (.ok [])).2 :=
  ⟨rfl, rfl, by decide⟩

/-- C5 amended: the ingest path performs its checks in the order
IP allowlist (if configured), rate limit (if enabled), content length,
signature presence, HMAC comparison — each short-circuiting — and the
presence check for the event-type and delivery-id headers (400) runs
ONLY AFTER signature validation has succeeded, followed by the JSON
validity check and event processing.  Formally: every trace of performed
checks is strictly increasing in the canonical order `checkIdx`, and a
trace that contains the required-headers check also contains the HMAC
comparison (so the 400 for missing headers never precedes the HMAC). -/
theorem c5_check_order_amended (hmacHex : String → String → String)
    (cfg : SecurityConfig) (st : SecurityState) (req : Request)
    (secret : String) (now : Nat) (parseOk : Bool)
    (process : Except String (List EPResult)) :
    chainOk (fun a b => decide (checkIdx a < checkIdx b))
        (webhookHandler hmacHex cfg st req secret now parseOk process).2
          = true ∧
      (Check.requiredHeaders
          ∈ (webhookHandler hmacHex cfg st req secret now parseOk process).2 →
        Check.hmacCompare
          ∈ (webhookHandler hmacHex cfg st req secret now parseOk process).2) := by
  have hcases := validateRequest_trace_cases hmacHex cfg st req secret now
  unfold webhookHandler
  rcases hveq : WebhookSecurity.validateRequest hmacHex cfg st req secret now
    with ⟨vres, st2, t⟩
  rw [hveq] at hcases
  simp only at hcases
  rcases hcases with ⟨hvalid, htrace⟩ | ⟨hvalid, htrace⟩
  · subst htrace
    rcases req.eventType with _ | et <;> rcases req.deliveryId with _ | di <;>
      cases parseOk <;> rcases process with e | results <;>
        by_cases hwl : 0 < st.ipWhitelist.length <;>
          by_cases hre : cfg.enable_rate_limiting <;>
            simp [hvalid, hwl, hre] <;> decide
  · rcases htrace with h | h | h | h | h <;> subst h <;>
      by_cases hwl : 0 < st.ipWhitelist.length <;>
        by_cases hre : cfg.enable_rate_limiting <;>
          simp [hvalid, hwl, hre] <;> decide

/-! ## Claim C1 — duplicate delivery id handling -/

/-- When `validateRequest` rejects, its status code is one of 403, 429,
413, 401 (never 200). -/
theorem validateRequest_invalid_code (hmacHex : String → String → String)
    (cfg : SecurityConfig) (st : SecurityState) (req : Request)
    (secret : String) (now : Nat) :
    (WebhookSecurity.validateRequest hmacHex cfg st req secret now).1.valid
        = false →
      ((WebhookSecurity.validateRequest hmacHex cfg st req secret now).1.statusCode
          = some 403 ∨
        (WebhookSecurity.validateRequest hmacHex cfg st req secret now).1.statusCode
          = some 429 ∨
        (WebhookSecurity.validateRequest hmacHex cfg st req secret now).1.statusCode
          = some 413 ∨
        (WebhookSecurity.validateRequest hmacHex cfg st req secret now).1.statusCode
          = some 401) := by
  obtain ⟨ip, cl, sg, et, di, rb⟩ := req
  unfold WebhookSecurity.validateRequest
  rcases hcr : checkRateLimit cfg st.rateLimiter ip now with ⟨blocked, rl2⟩
  cases sg with
  | none =>
    by_cases hwl : 0 < st.ipWhitelist.length <;>
      by_cases hip : ip ∈ st.ipWhitelist <;>
        by_cases hre : cfg.enable_rate_limiting <;>
          cases blocked <;>
            by_cases hsz : cfg.payload_size_limit_mb * 1024 * 1024 < cl <;>
              simp [hwl, hip, hre, hcr, hsz]
  | some sig =>
    by_cases hv : WebhookSecurity.verifySignature hmacHex rb sig secret <;>
      by_cases hwl : 0 < st.ipWhitelist.length <;>
        by_cases hip : ip ∈ st.ipWhitelist <;>
          by_cases hre : cfg.enable_rate_limiting <;>
            cases blocked <;>
              by_cases hsz : cfg.payload_size_limit_mb * 1024 * 1024 < cl <;>
                simp [hwl, hip, hre, hcr, hsz, hv]

/-- C1 counterexample: an accepted, correctly signed replay whose
delivery id `"D1"` already has an event row.  `storeEvent` does not
return a distinguished already-exists outcome — the plain INSERT hits
the UNIQUE index and throws — and the route's catch maps it to HTTP 500,
not the claimed 200. -/
theorem c1_duplicate_replay_counterexample :
    EventProcessor.storeEvent [⟨1, "D1", "push", .completed⟩] ⟨"D1", "push"⟩
        = .error "UNIQUE constraint failed: events.github_delivery_id" ∧
      (webhookHandler (fun _ _ => "ab") ⟨false, 1000, 10⟩ ⟨[], []⟩
          ⟨"1.2.3.4", 10, some "sha256=ab", some "push", some "D1", "\x7b\x7d"⟩
          "core-secret" 0 true
          ((EventProcessor.processEvent backoffDemoConfig
              (fun _ => .ok ⟨true, some 200, none, 5⟩)
              [⟨1, ["push"], true⟩] [⟨1, "D1", "push", .completed⟩]
              ⟨"D1", "push"⟩).map (fun p => p.2))).1.status = 500 :=
  ⟨rfl, rfl⟩

/-- C1 amended: replaying a delivery id that already has an event row
makes `storeEvent` fail with the UNIQUE-index violation (there is no
distinguished already-exists outcome in the source); no second event row
is created and no delivery is attempted (`processEvent` propagates the
error before any subscriber work), and the route handler never answers
200 for such a request — the response is 500 when the request passes
validation and the header/JSON checks, or the corresponding 4xx
otherwise. -/
theorem c1_duplicate_replay_amended (cfg : RetryConfig)
    (deliver : Nat → Except String DeliveryResult) (subs : List SubscriberRec)
    (table : List EventRow) (ev : GHEvent)
    (hdup : table.any (fun r => r.github_delivery_id == ev.deliveryId) = true)
    (hmacHex : String → String → String) (secCfg : SecurityConfig)
    (st : SecurityState) (req : Request) (secret : String) (now : Nat)
    (parseOk : Bool) :
    EventProcessor.storeEvent table ev
        = .error "UNIQUE constraint failed: events.github_delivery_id" ∧
      EventProcessor.processEvent cfg deliver subs table ev
        = .error "UNIQUE constraint failed: events.github_delivery_id" ∧
      (webhookHandler hmacHex secCfg st req secret now parseOk
          ((EventProcessor.processEvent cfg deliver subs table ev).map
            (fun p => p.2))).1.status ≠ 200 := by
  have hstore : EventProcessor.storeEvent table ev
      = .error "UNIQUE constraint failed: events.github_delivery_id" := by
    simp [EventProcessor.storeEvent, hdup]
  have hproc : EventProcessor.processEvent cfg deliver subs table ev
      = .error "UNIQUE constraint failed: events.github_delivery_id" := by
    unfold EventProcessor.processEvent
    rw [hstore]
  refine ⟨hstore, hproc, ?_⟩
  rw [hproc]
  have hcode := validateRequest_invalid_code hmacHex secCfg st req secret now
  unfold webhookHandler
  rcases hveq : WebhookSecurity.validateRequest hmacHex secCfg st req secret now
    with ⟨vres, st2, t⟩
  rw [hveq] at hcode
  simp only at hcode
  by_cases hv : vres.valid
  · rcases req.eventType with _ | et <;> rcases req.deliveryId with _ | di <;>
      cases parseOk <;> simp [hv, Except.map]
  · have hv' : vres.valid = false := by simpa using hv
    rcases hcode hv' with h | h | h | h <;> simp [hv', h]

/-- C1 witness: the amended statement applied at the concrete replayed
request for delivery id `"D1"`. -/
theorem c1_duplicate_replay_amended_witness :
    ([⟨1, "D1", "push", .completed⟩] : List EventRow).any
        (fun r => r.github_delivery_id == "D1") = true ∧
      (EventProcessor.storeEvent [⟨1, "D1", "push", .completed⟩] ⟨"D1", "push"⟩
          = .error "UNIQUE constraint failed: events.github_delivery_id" ∧
        EventProcessor.processEvent backoffDemoConfig
            (fun _ => .ok ⟨true, some 200, none, 5⟩) [⟨1, ["push"], true⟩]
            [⟨1, "D1", "push", .completed⟩] ⟨"D1", "push"⟩
          = .error "UNIQUE constraint failed: events.github_delivery_id" ∧
        (webhookHandler (fun _ _ => "ab") ⟨false, 1000, 10⟩ ⟨[], []⟩
            ⟨"1.2.3.4", 10, some "sha256=ab", some "push", some "D1", "\x7b\x7d"⟩
            "core-secret" 0 true
            ((EventProcessor.processEvent backoffDemoConfig
                (fun _ => .ok ⟨true, some 200, none, 5⟩) [⟨1, ["push"], true⟩]
                [⟨1, "D1", "push", .completed⟩] ⟨"D1", "push"⟩).map
              (fun p => p.2))).1.status ≠ 200) :=
  ⟨rfl,
    c1_duplicate_replay_amended backoffDemoConfig
      (fun _ => .ok ⟨true, some 200, none, 5⟩) [⟨1, ["push"], true⟩]
      [⟨1, "D1", "push", .completed⟩] ⟨"D1", "push"⟩ rfl (fun _ _ => "ab")
      ⟨false, 1000, 10⟩ ⟨[], []⟩
      ⟨"1.2.3.4", 10, some "sha256=ab", some "push", some "D1", "\x7b\x7d"⟩
      "core-secret" 0 true⟩

/-! ## Header encryption (`server/encryption.ts`) — claim C4 -/

/-- A byte, as stored in a Node `Buffer`. -/
abbrev Byte := Fin 256

/-- Lowercase hex digit character of a nibble value (codepoint 48-57 for
values below ten, 97-102 otherwise), the alphabet of Node's
`buf.toString("hex")`. -/
def hexChar (n : Nat) : Char :=
  if n < 10 then Char.ofNat (48 + n) else Char.ofNat (87 + n)

/-- Value of a lowercase hex digit character, or `none` for any other
character. -/
def hexVal (c : Char) : Option Nat :=
  if 48 ≤ c.toNat ∧ c.toNat ≤ 57 then some (c.toNat - 48)
  else if 97 ≤ c.toNat ∧ c.toNat ≤ 102 then some (c.toNat - 87)
  else none

/-- Hex encoding of one byte: high then low nibble
(`Buffer.toString("hex")`). -/
def toHexByte (b : Byte) : List Char := [hexChar (b.val / 16), hexChar (b.val % 16)]

/-- Hex encoding of a byte sequence. -/
def bytesToHex (bs : List Byte) : List Char := (bs.map toHexByte).flatten

/-- Hex decoding of a character sequence (`Buffer.from(s, "hex")` on a
well-formed even-length hex string; `none` on anything else). -/
def hexPairsToBytes : List Char → Option (List Byte)
  | [] => some []
  | h :: l :: rest => do
    let hv ← hexVal h
    let lv ← hexVal l
    let bs ← hexPairsToBytes rest
    some ((⟨(hv * 16 + lv) % 256, Nat.mod_lt _ (by norm_num)⟩ : Byte) :: bs)
  | [_] => none

/-- Hex encoding as a string. -/
def toHexStr (bs : List Byte) : String := String.mk (bytesToHex bs)

/-- Hex decoding from a string. -/
def fromHexStr (s : String) : Option (List Byte) := hexPairsToBytes s.data

/-- `hexVal` inverts `hexChar` on nibble values. -/
theorem hexVal_hexChar (n : Nat) (h : n < 16) : hexVal (hexChar n) = some n := by
  interval_cases n <;> rfl

/-- Hex decoding inverts hex encoding. -/
theorem hexPairsToBytes_bytesToHex (bs : List Byte) :
    hexPairsToBytes (bytesToHex bs) = some bs := by
  induction bs with
  | nil => rfl
  | cons b rest ih =>
    have hhi : b.val / 16 < 16 := by omega
    have hlo : b.val % 16 < 16 := by omega
    have hval : (b.val / 16 * 16 + b.val % 16) % 256 = b.val := by omega
    have hshape : bytesToHex (b :: rest)
        = hexChar (b.val / 16) :: hexChar (b.val % 16) :: bytesToHex rest := by
      simp [bytesToHex, toHexByte]
    rw [hshape]
    simp only [hexPairsToBytes, hexVal_hexChar _ hhi, hexVal_hexChar _ hlo, ih,
      Option.bind_eq_bind, Option.some_bind]
    simp [Fin.ext_iff, hval]

/-- Hex string decoding inverts hex string encoding. -/
theorem fromHexStr_toHexStr (bs : List Byte) :
    fromHexStr (toHexStr bs) = some bs := by
  unfold fromHexStr toHexStr
  exact hexPairsToBytes_bytesToHex bs

/-- A hex digit is never a double quote. -/
theorem hexChar_ne_quote (n : Nat) (h : n < 16) : hexChar n ≠ '\"' := by
  interval_cases n <;> decide

/-- Hex-encoded strings never contain a double quote (so they need no
JSON escaping). -/
theorem quote_not_mem_bytesToHex (bs : List Byte) : '\"' ∉ bytesToHex bs := by
  induction bs with
  | nil => simp [bytesToHex]
  | cons b rest ih =>
    intro hmem
    simp only [bytesToHex, List.map_cons, List.flatten_cons, toHexByte,
      List.cons_append, List.nil_append, List.mem_cons] at hmem
    rcases hmem with h | h | h
    · exact hexChar_ne_quote _ (by omega) h.symm
    · exact hexChar_ne_quote _ (by omega) h.symm
    · exact ih (by simpa [bytesToHex] using h)

/-- `EncryptedData` from `server/encryption.ts`: the four hex-encoded
fields stored in `headers_data`. -/
structure EncryptedData where
  encrypted : String
  iv : String
  tag : String
  salt : String
deriving DecidableEq, Repr

/-- Opening brace character (written numerically). -/
def lbrace : Char := Char.ofNat 123

/-- Closing brace character (written numerically). -/
def rbrace : Char := Char.ofNat 125

/-- The literal characters `JSON.stringify` emits before the `encrypted`
field value. -/
def encLit1 : List Char := [lbrace, '\"'] ++ "encrypted".data ++ ['\"', ':', '\"']

/-- The literal characters between the `encrypted` and `iv` values. -/
def encLit2 : List Char := [',', '\"'] ++ "iv".data ++ ['\"', ':', '\"']

/-- The literal characters between the `iv` and `tag` values. -/
def encLit3 : List Char := [',', '\"'] ++ "tag".data ++ ['\"', ':', '\"']

/-- The literal characters between the `tag` and `salt` values. -/
def encLit4 : List Char := [',', '\"'] ++ "salt".data ++ ['\"', ':', '\"']

/-- `JSON.stringify` of an `EncryptedData` object, as
`encryptHeaders` performs it.  The four field values are hex strings
(they contain no quote or backslash), so stringification is literal
concatenation. -/
def jstringifyEnc (e : EncryptedData) : String :=
  String.mk (encLit1 ++ e.encrypted.data ++ ['\"']
    ++ encLit2 ++ e.iv.data ++ ['\"']
    ++ encLit3 ++ e.tag.data ++ ['\"']
    ++ encLit4 ++ e.salt.data ++ ['\"', rbrace])

/-- Consume an expected literal character sequence, returning the
remainder. -/
def expectChars : List Char → List Char → Option (List Char)
  | [], cs => some cs
  | _ :: _, [] => none
  | l :: lit, c :: cs => if c = l then expectChars lit cs else none

/-- Consume characters up to the next double quote (the field values
parsed here are hex strings, which contain no escapes). -/
def takeStr : List Char → Option (List Char × List Char)
  | [] => none
  | c :: rest =>
    if c = '\"' then some ([], rest)
    else do
      let (s, r) ← takeStr rest
      some (c :: s, r)

/-- `JSON.parse` of a serialized `EncryptedData` object, restricted to
the exact shape `jstringifyEnc` produces (the only shape `decryptHeaders`
receives). -/
def jparseEnc (s : String) : Option EncryptedData := do
  let cs1 ← expectChars encLit1 s.data
  let (v1, cs2) ← takeStr cs1
  let cs3 ← expectChars encLit2 cs2
  let (v2, cs4) ← takeStr cs3
  let cs5 ← expectChars encLit3 cs4
  let (v3, cs6) ← takeStr cs5
  let cs7 ← expectChars encLit4 cs6
  let (v4, cs8) ← takeStr cs7
  let cs9 ← expectChars [rbrace] cs8
  if cs9.isEmpty then some ⟨String.mk v1, String.mk v2, String.mk v3, String.mk v4⟩
  else none

/-- `expectChars` consumes exactly its literal prefix. -/
theorem expectChars_append (lit rest : List Char) :
    expectChars lit (lit ++ rest) = some rest := by
  induction lit with
  | nil => rfl
  | cons c lit ih => simp [expectChars, ih]

/-- `takeStr` splits at the first quote when the content is quote-free. -/
theorem takeStr_append (content rest : List Char) (h : '\"' ∉ content) :
    takeStr (content ++ '\"' :: rest) = some (content, rest) := by
  induction content with
  | nil => simp [takeStr]
  | cons c cs ih =>
    simp only [List.mem_cons, not_or] at h
    have hc : ¬c = '\"' := fun hc => h.1 hc.symm
    simp [takeStr, hc, ih h.2]

/-- Parsing inverts stringification of an `EncryptedData` record whose
four fields are quote-free (hex strings in particular). -/
theorem jparseEnc_jstringifyEnc (e : EncryptedData)
    (h1 : '\"' ∉ e.encrypted.data) (h2 : '\"' ∉ e.iv.data)
    (h3 : '\"' ∉ e.tag.data) (h4 : '\"' ∉ e.salt.data) :
    jparseEnc (jstringifyEnc e) = some e := by
  unfold jparseEnc jstringifyEnc
  simp only [List.append_assoc, List.cons_append, List.nil_append]
  rw [expectChars_append]
  simp only [Option.bind_eq_bind, Option.some_bind]
  rw [show (e.encrypted.data ++ '\"' :: (encLit2 ++ (e.iv.data ++ '\"' ::
      (encLit3 ++ (e.tag.data ++ '\"' :: (encLit4 ++ (e.salt.data ++ '\"' ::
        [rbrace])))))) : List Char)
    = e.encrypted.data ++ '\"' :: (encLit2 ++ (e.iv.data ++ '\"' ::
      (encLit3 ++ (e.tag.data ++ '\"' :: (encLit4 ++ (e.salt.data ++ '\"' ::
        [rbrace])))))) from rfl]
  rw [takeStr_append _ _ h1]
  simp only [Option.some_bind]
  rw [expectChars_append]
  simp only [Option.some_bind]
  rw [takeStr_append _ _ h2]
  simp only [Option.some_bind]
  rw [expectChars_append]
  simp only [Option.some_bind]
  rw [takeStr_append _ _ h3]
  simp only [Option.some_bind]
  rw [expectChars_append]
  simp only [Option.some_bind]
  rw [takeStr_append _ _ h4]
  simp only [Option.some_bind]
  rw [show (expectChars [rbrace] [rbrace] : Option (List Char))
    = some [] from rfl]
  simp

/-- The external Node `crypto` primitives `encryptData`/`decryptData`
use, as abstract deterministic functions: PBKDF2 key derivation
(`crypto.pbkdf2Sync`), AES-256-GCM encryption (`createCipheriv` with
AAD, returning ciphertext bytes and the auth tag) and decryption
(`createDecipheriv`, returning `none` when authentication fails). -/
structure GcmPrims where
  pbkdf2 : String → List Byte → Nat → Nat → List Byte
  enc : List Byte → List Byte → String → String → List Byte × List Byte
  dec : List Byte → List Byte → String → List Byte → List Byte → Option String

/-- The fixed associated-data string of `server/encryption.ts`. -/
def aadStr : String := "github-event-router-headers"

/-- `encryptData` from `server/encryption.ts`: derive a 32-byte key via
PBKDF2-HMAC-SHA-256 at 100000 iterations over the (random) salt, run
AES-256-GCM with the (random) 16-byte IV and the fixed AAD, and return
the four fields hex-encoded.  The random salt and IV produced by
`crypto.randomBytes` are the explicit `salt`/`iv` arguments. -/
def encryptData (P : GcmPrims) (secret : String) (salt iv : List Byte)
    (data : String) : EncryptedData :=
  let key := P.pbkdf2 secret salt 100000 32
  let ct := P.enc key iv aadStr data
  { encrypted := toHexStr ct.1, iv := toHexStr iv,
    tag := toHexStr ct.2, salt := toHexStr salt }

/-- `decryptData` from `server/encryption.ts`: hex-decode the stored
salt, IV, tag and ciphertext, re-derive the key from the secret and the
stored salt with the same PBKDF2 parameters, and decrypt with the same
AAD; any failure is an error (`none`). -/
def decryptData (P : GcmPrims) (secret : String) (e : EncryptedData) :
    Option String := do
  let salt ← fromHexStr e.salt
  let iv ← fromHexStr e.iv
  let tag ← fromHexStr e.tag
  let ct ← fromHexStr e.encrypted
  let key := P.pbkdf2 secret salt 100000 32
  P.dec key iv aadStr tag ct

/-- The external `JSON` library on arbitrary header maps
(`JSON.stringify` / `JSON.parse` of a string-to-string record). -/
structure JsonMapCodec where
  stringify : List (String × String) → String
  parse : String → Option (List (String × String))

/-- `encryptHeaders` from `server/encryption.ts`:
`JSON.stringify(encryptData(JSON.stringify(headers)))`. -/
def encryptHeaders (P : GcmPrims) (J : JsonMapCodec) (secret : String)
    (salt iv : List Byte) (headers : List (String × String)) : String :=
  jstringifyEnc (encryptData P secret salt iv (J.stringify headers))

/-- `decryptHeaders` from `server/encryption.ts`:
`JSON.parse(decryptData(JSON.parse(s)))`, with every failure mapped to an
error (`none`). -/
def decryptHeaders (P : GcmPrims) (J : JsonMapCodec) (secret : String)
    (s : String) : Option (List (String × String)) := do
  let e ← jparseEnc s
  let plain ← decryptData P secret e
  J.parse plain

/-! ## Claim C4 — header encryption round-trip -/

/-- C4: for every header map `h` and configured master secret, decrypting
the result of encrypting `h` returns exactly `h`:
`decryptHeaders (encryptHeaders h) = some h`.  The hypotheses record the
contracts of the two external libraries the code composes: AES-256-GCM
decryption inverts encryption for the same key (derived by
PBKDF2-HMAC-SHA-256 at 100000 iterations over the same salt), IV and
associated data (`hdec`), and `JSON.parse` inverts `JSON.stringify` on
the header map (`hjson`).  Everything the repository's own code does —
hex-encoding and decoding of salt, IV, tag and ciphertext, serializing
and re-parsing the `{encrypted, iv, tag, salt}` record, and threading the
same secret, salt, IV and AAD through both directions — is verified
concretely. -/
theorem c4_headers_roundtrip (P : GcmPrims) (J : JsonMapCodec)
    (secret : String) (salt iv : List Byte)
    (headers : List (String × String))
    (hdec : P.dec (P.pbkdf2 secret salt 100000 32) iv aadStr
        (P.enc (P.pbkdf2 secret salt 100000 32) iv aadStr
          (J.stringify headers)).2
        (P.enc (P.pbkdf2 secret salt 100000 32) iv aadStr
          (J.stringify headers)).1
      = some (J.stringify headers))
    (hjson : J.parse (J.stringify headers) = some headers) :
    decryptHeaders P J secret (encryptHeaders P J secret salt iv headers)
      = some headers := by
  have hq : ∀ bs : List Byte, '\"' ∉ (toHexStr bs).data := fun bs =>
    quote_not_mem_bytesToHex bs
  have hdd : decryptData P secret
      (encryptData P secret salt iv (J.stringify headers))
        = some (J.stringify headers) := by
    unfold decryptData encryptData
    simp only [fromHexStr_toHexStr, Option.bind_eq_bind, Option.some_bind]
    exact hdec
  unfold encryptHeaders decryptHeaders
  rw [jparseEnc_jstringifyEnc
    (encryptData P secret salt iv (J.stringify headers))
    (hq _) (hq _) (hq _) (hq _)]
  simp only [Option.bind_eq_bind, Option.some_bind]
  rw [hdd]
  simp only [Option.some_bind]
  exact hjson

/-- C4 witness: the round-trip theorem applied at a concrete header map
with concrete primitives satisfying the two library contracts at this
input. -/
theorem c4_headers_roundtrip_witness :
    ((⟨fun _ _ _ _ => [], fun _ _ _ _ => ([], []),
        fun _ _ _ _ _ => some "x"⟩ : GcmPrims).dec
          ((⟨fun _ _ _ _ => [], fun _ _ _ _ => ([], []),
            fun _ _ _ _ _ => some "x"⟩ : GcmPrims).pbkdf2 "master" [] 100000 32)
          [] aadStr
          ((⟨fun _ _ _ _ => [], fun _ _ _ _ => ([], []),
            fun _ _ _ _ _ => some "x"⟩ : GcmPrims).enc
            ((⟨fun _ _ _ _ => [], fun _ _ _ _ => ([], []),
              fun _ _ _ _ _ => some "x"⟩ : GcmPrims).pbkdf2 "master" [] 100000 32)
            [] aadStr
            ((⟨fun _ => "x", fun _ => some [("a", "b")]⟩ : JsonMapCodec).stringify
              [("a", "b")])).2
          ((⟨fun _ _ _ _ => [], fun _ _ _ _ => ([], []),
            fun _ _ _ _ _ => some "x"⟩ : GcmPrims).enc
            ((⟨fun _ _ _ _ => [], fun _ _ _ _ => ([], []),
              fun _ _ _ _ _ => some "x"⟩ : GcmPrims).pbkdf2 "master" [] 100000 32)
            [] aadStr
            ((⟨fun _ => "x", fun _ => some [("a", "b")]⟩ : JsonMapCodec).stringify
              [("a", "b")])).1
        = some ((⟨fun _ => "x", fun _ => some [("a", "b")]⟩ : JsonMapCodec).stringify
            [("a", "b")]) ∧
      (⟨fun _ => "x", fun _ => some [("a", "b")]⟩ : JsonMapCodec).parse
          ((⟨fun _ => "x", fun _ => some [("a", "b")]⟩ : JsonMapCodec).stringify
            [("a", "b")])
        = some [("a", "b")]) ∧
    decryptHeaders
        ⟨fun _ _ _ _ => [], fun _ _ _ _ => ([], []), fun _ _ _ _ _ => some "x"⟩
        ⟨fun _ => "x", fun _ => some [("a", "b")]⟩ "master"
        (encryptHeaders
          ⟨fun _ _ _ _ => [], fun _ _ _ _ => ([], []), fun _ _ _ _ _ => some "x"⟩
          ⟨fun _ => "x", fun _ => some [("a", "b")]⟩ "master" [] []
          [("a", "b")])
      = some [("a", "b")] :=
  ⟨⟨rfl, rfl⟩,
    c4_headers_roundtrip
      ⟨fun _ _ _ _ => [], fun _ _ _ _ => ([], []), fun _ _ _ _ _ => some "x"⟩
      ⟨fun _ => "x", fun _ => some [("a", "b")]⟩ "master" [] [] [("a", "b")]
      rfl rfl⟩
